import Mathlib

/-!
# Verification of the kubedog multitrack orchestrator and statefulset rollout predicate

Shallow embedding of `pkg/trackers/rollout/multitrack/multitrack.go` and
`pkg/tracker/statefulset/rollout_status.go`.

Go maps are embedded as association lists with unique keys (`List (String × α)`);
Go `*int` fields become `Option Int`; Go `string`-based enums stay `String`.
A Go `panic` is embedded as the `none` result of an `Option`-returning function.
Terminal colouring (`fatih/color`) is display markup and is elided: formatted
strings are embedded without ANSI escape sequences.
-/

set_option autoImplicit false

namespace Kubedog

/-! ## Association-list embedding of Go maps -/

variable {α : Type}

/-- Go map read `m[k]` (returning whether the key is present). -/
def assocFind : List (String × α) → String → Option α
  | [], _ => none
  | (k, v) :: rest, name => if k = name then some v else assocFind rest name

/-- Go map assignment `m[k] = v`. -/
def assocSet : List (String × α) → String → α → List (String × α)
  | [], k, v => [(k, v)]
  | (k', v') :: rest, k, v =>
    if k' = k then (k, v) :: rest else (k', v') :: assocSet rest k v

/-- Go `delete(m, k)`. -/
def assocErase : List (String × α) → String → List (String × α)
  | [], _ => []
  | (k', v') :: rest, k =>
    if k' = k then assocErase rest k else (k', v') :: assocErase rest k

/-! ## multitrack.go: fail modes, deploy conditions, specs -/

/-- `type FailMode string`. -/
abbrev FailMode := String

def IgnoreAndContinueDeployProcess : FailMode := "IgnoreAndContinueDeployProcess"

def FailWholeDeployProcessImmediately : FailMode := "FailWholeDeployProcessImmediately"

def HopeUntilEndOfDeployProcess : FailMode := "HopeUntilEndOfDeployProcess"

/-- `type DeployCondition string`. -/
abbrev DeployCondition := String

def ControllerIsReady : DeployCondition := "ControllerIsReady"

def PodIsReady : DeployCondition := "PodIsReady"

def EndOfDeploy : DeployCondition := "EndOfDeploy"

/-- `type MultitrackSpec struct`. `*regexp.Regexp` fields are embedded by their
pattern text (they are never interpreted in the code under verification). -/
structure MultitrackSpec where
  ResourceName : String
  Namespace : String
  FailMode : FailMode
  AllowFailuresCount : Option Int
  FailureThresholdSeconds : Option Int
  LogWatchRegex : Option String
  LogWatchRegexByContainerName : List (String × Option String)
  ShowLogsUntil : DeployCondition
  SkipLogsForContainers : List String
  ShowLogsOnlyForContainers : List String
  deriving DecidableEq, Repr

/-- `func setDefaultSpecValues(spec *MultitrackSpec)`: fills absent optional
fields in place; embedded as a pure spec-to-spec function. -/
def setDefaultSpecValues (spec : MultitrackSpec) : MultitrackSpec :=
  let spec1 :=
    if spec.FailMode = "" then
      { spec with FailMode := FailWholeDeployProcessImmediately }
    else spec
  let spec2 :=
    if spec1.AllowFailuresCount = none then
      { spec1 with AllowFailuresCount := some 1 }
    else spec1
  let spec3 :=
    if spec2.FailureThresholdSeconds = none then
      { spec2 with FailureThresholdSeconds := some 0 }
    else spec2
  if spec3.ShowLogsUntil = "" then
    { spec3 with ShowLogsUntil := PodIsReady }
  else spec3

end Kubedog

namespace appsv1

/-! ## k8s.io/api/apps/v1 fragment used by rollout_status.go

Modelled from the spec: the statefulset inputs of §4.6 (desired replica count,
update-strategy kind with optional partition, generation vs. observed
generation, replica counters, revision identifiers); the `appsv1` type
definitions themselves are not part of this repository's sources. -/

def RollingUpdateStatefulSetStrategyType : String := "RollingUpdate"

def OnDeleteStatefulSetStrategyType : String := "OnDelete"

structure RollingUpdateStatefulSetStrategy where
  Partition : Option Int
  deriving DecidableEq, Repr

structure StatefulSetUpdateStrategy where
  Type_ : String
  RollingUpdate : Option RollingUpdateStatefulSetStrategy
  deriving DecidableEq, Repr

structure StatefulSetSpec where
  Replicas : Option Int
  UpdateStrategy : StatefulSetUpdateStrategy
  deriving DecidableEq, Repr

structure StatefulSetStatus where
  ObservedGeneration : Int
  Replicas : Int
  ReadyReplicas : Int
  CurrentReplicas : Int
  UpdatedReplicas : Int
  CurrentRevision : String
  UpdateRevision : String
  deriving DecidableEq, Repr

structure StatefulSet where
  Generation : Int
  Spec : StatefulSetSpec
  Status : StatefulSetStatus
  deriving DecidableEq, Repr

end appsv1

namespace Kubedog

/-- `func StatefulSetComplete(sts *appsv1.StatefulSet) bool` from
`pkg/tracker/statefulset/rollout_status.go`.

In the partitioned branch the source dereferences `*sts.Spec.Replicas`; a nil
pointer is unreachable there because `partition` is only taken from the spec
when `sts.Spec.Replicas != nil`, so the embedding uses `Option.getD 0`. -/
def StatefulSetComplete (sts : appsv1.StatefulSet) : Bool :=
  if sts.Status.ObservedGeneration == 0 ||
      sts.Generation != sts.Status.ObservedGeneration then
    false
  else if (match sts.Spec.Replicas with
      | some r => r != sts.Status.Replicas || r != sts.Status.ReadyReplicas
      | none => false) then
    false
  else if sts.Spec.UpdateStrategy.Type_ == appsv1.OnDeleteStatefulSetStrategyType then
    true
  else if sts.Spec.UpdateStrategy.Type_ == appsv1.RollingUpdateStatefulSetStrategyType then
    let partition : Int :=
      match sts.Spec.UpdateStrategy.RollingUpdate with
      | some ru =>
        match sts.Spec.Replicas, ru.Partition with
        | some _, some p => p
        | _, _ => 0
      | none => 0
    if partition == 0 then
      if sts.Status.UpdateRevision != sts.Status.CurrentRevision then
        false
      else if sts.Status.CurrentReplicas == sts.Status.ReadyReplicas &&
          (sts.Status.UpdatedReplicas == 0 ||
            sts.Status.UpdatedReplicas == sts.Status.CurrentReplicas) then
        true
      else
        false
    else
      if sts.Status.UpdateRevision == sts.Status.CurrentRevision then
        false
      else if sts.Status.CurrentReplicas == partition &&
          sts.Status.UpdatedReplicas == (sts.Spec.Replicas.getD 0 - partition) then
        true
      else
        false
  else
    true

/-! ## multitrack.go: tracked-resource state and the failure state machine -/

/-- `type multitrackerResourceState struct`. `FailuresCount` is a Go `int`. -/
structure multitrackerResourceState where
  IsFailed : Bool
  LastFailureReason : String
  FailuresCount : Int
  deriving DecidableEq, Repr

abbrev ResourceStates := List (String × multitrackerResourceState)

/-- The control result a failure handler hands back to its watcher: the Go
code returns `nil` (keep watching) or the sentinel error `tracker.StopTrack`
(stop this resource's watcher). -/
inductive FailureAction where
  | continueTrack
  | stopTrack
  deriving DecidableEq, Repr

/-- `func (mt *multitracker) handleResourceFailure`. The in-place mutation of
the states map becomes an updated map in the result. `none` embeds the two Go
panics (nil state pointer for an untracked name, nil `AllowFailuresCount`)
and the explicit `panic("bad fail mode: ...")` branch. -/
def handleResourceFailure (resourcesStates : ResourceStates)
    (spec : MultitrackSpec) (reason : String) :
    Option (ResourceStates × FailureAction) :=
  match assocFind resourcesStates spec.ResourceName with
  | none => none
  | some st =>
    let st1 := { st with FailuresCount := st.FailuresCount + 1 }
    let states1 := assocSet resourcesStates spec.ResourceName st1
    match spec.AllowFailuresCount with
    | none => none
    | some allowFailuresCount =>
      if st1.FailuresCount ≤ allowFailuresCount then
        some (states1, .continueTrack)
      else if spec.FailMode = FailWholeDeployProcessImmediately then
        some (assocSet states1 spec.ResourceName
          { st1 with IsFailed := true, LastFailureReason := reason },
          .stopTrack)
      else if spec.FailMode = HopeUntilEndOfDeployProcess then
        some (assocSet states1 spec.ResourceName
          { st1 with IsFailed := true, LastFailureReason := reason },
          .continueTrack)
      else if spec.FailMode = IgnoreAndContinueDeployProcess then
        some (assocErase states1 spec.ResourceName, .stopTrack)
      else
        none

/-- `func (mt *multitracker) handleResourceReadyCondition`. -/
def handleResourceReadyCondition (resourcesStates : ResourceStates)
    (spec : MultitrackSpec) : ResourceStates × FailureAction :=
  (assocErase resourcesStates spec.ResourceName, .stopTrack)

/-! ## Status snapshot shapes consumed by the report renderer

Modelled from the spec: the per-kind status snapshot shapes (§4.5, §6 —
phase+conditions for pods; progressing/ready condition messages and failed
pod sub-statuses for deployments; replica/scheduling counters plus raw
conditions for stateful and daemon sets; active/succeeded/failed counters and
timestamps for jobs). The defining Go types live in the per-kind tracker
packages (`pkg/tracker/{pod,deployment,statefulset,daemonset,job}`), which
are not among the sources under verification. -/

structure ResourceCondition where
  LastTransitionTime : String
  Type_ : String
  Status : String
  Reason : String
  Message : String
  deriving DecidableEq, Repr

structure PodStatus where
  Phase : String
  Conditions : List ResourceCondition
  deriving DecidableEq, Repr

/-- One readiness / progress check of a deployment's ready status. -/
structure DeployCheckCondition where
  IsSatisfied : Bool
  Message : String
  deriving DecidableEq, Repr

structure DeploymentPodStatus where
  IsFailed : Bool
  FailedReason : String
  deriving DecidableEq, Repr

structure DeploymentReadyStatus where
  IsReady : Bool
  ProgressingConditions : List DeployCheckCondition
  ReadyConditions : List DeployCheckCondition
  deriving DecidableEq, Repr

structure DeploymentStatus where
  IsFailed : Bool
  FailedReason : String
  ReadyStatus : DeploymentReadyStatus
  Pods : List (String × DeploymentPodStatus)
  deriving DecidableEq, Repr

structure StatefulSetStatus where
  Replicas : Int
  ReadyReplicas : Int
  CurrentReplicas : Int
  UpdatedReplicas : Int
  Conditions : List ResourceCondition
  deriving DecidableEq, Repr

structure DaemonSetStatus where
  CurrentNumberScheduled : Int
  NumberReady : Int
  NumberAvailable : Int
  NumberUnavailable : Int
  Conditions : List ResourceCondition
  deriving DecidableEq, Repr

structure JobStatus where
  Active : Int
  Succeeded : Int
  Failed : Int
  StartTime : String
  CompletionTime : String
  Conditions : List ResourceCondition
  deriving DecidableEq, Repr

/-- `type multitracker struct` (the `sync.Mutex` handler lock is elided: all
embedded operations are already atomic state transformers). -/
structure multitracker where
  DeploymentsSpecs : List (String × MultitrackSpec)
  TrackingPods : ResourceStates
  PodsStatuses : List (String × PodStatus)
  TrackingDeployments : ResourceStates
  DeploymentsStatuses : List (String × DeploymentStatus)
  ShownDeploymentMessages : List (String × List String)
  TrackingStatefulSets : ResourceStates
  StatefulSetsStatuses : List (String × StatefulSetStatus)
  TrackingDaemonSets : ResourceStates
  DaemonSetsStatuses : List (String × DaemonSetStatus)
  TrackingJobs : ResourceStates
  JobsStatuses : List (String × JobStatus)
  deriving DecidableEq, Repr

/-- The slice of the five tracked-set maps iterated by
`hasFailedTrackingResources` and `isTrackingAnyNonFailedResource`. -/
def multitracker.allTrackingStates (mt : multitracker) : List ResourceStates :=
  [mt.TrackingPods, mt.TrackingDeployments, mt.TrackingStatefulSets,
    mt.TrackingDaemonSets, mt.TrackingJobs]

/-- `func (mt *multitracker) isTrackingAnyNonFailedResource() bool`. -/
def isTrackingAnyNonFailedResource (mt : multitracker) : Bool :=
  mt.allTrackingStates.any (fun states => states.any (fun e => !e.2.IsFailed))

/-- `func (mt *multitracker) hasFailedTrackingResources() bool`. -/
def hasFailedTrackingResources (mt : multitracker) : Bool :=
  mt.allTrackingStates.any (fun states => states.any (fun e => e.2.IsFailed))

/-- The `msgParts` accumulation of
`func (mt *multitracker) formatFailedTrackingResourcesError() error`:
five loops, each skipping non-failed states and appending one formatted
line per failed resource. -/
def failedTrackingResourcesMsgParts (mt : multitracker) : List String :=
  let msgParts : List String := []
  let msgParts := mt.TrackingPods.foldl (fun acc e =>
    if !e.2.IsFailed then acc
    else acc ++ ["po/" ++ e.1 ++ " failed: " ++ e.2.LastFailureReason]) msgParts
  let msgParts := mt.TrackingDeployments.foldl (fun acc e =>
    if !e.2.IsFailed then acc
    else acc ++ ["deploy/" ++ e.1 ++ " failed: " ++ e.2.LastFailureReason]) msgParts
  let msgParts := mt.TrackingStatefulSets.foldl (fun acc e =>
    if !e.2.IsFailed then acc
    else acc ++ ["sts/" ++ e.1 ++ " failed: " ++ e.2.LastFailureReason]) msgParts
  let msgParts := mt.TrackingDaemonSets.foldl (fun acc e =>
    if !e.2.IsFailed then acc
    else acc ++ ["ds/" ++ e.1 ++ " failed: " ++ e.2.LastFailureReason]) msgParts
  let msgParts := mt.TrackingJobs.foldl (fun acc e =>
    if !e.2.IsFailed then acc
    else acc ++ ["job/" ++ e.1 ++ " failed: " ++ e.2.LastFailureReason]) msgParts
  msgParts

/-- `formatFailedTrackingResourcesError`: the aggregated error text,
`strings.Join(msgParts, "\n")`. -/
def formatFailedTrackingResourcesError (mt : multitracker) : String :=
  String.intercalate "\n" (failedTrackingResourcesMsgParts mt)

/-- The terminal decision of the completion goroutine of `Multitrack`
(multitrack.go lines 204-208): once every watcher goroutine has finished,
the run resolves to the aggregated error iff some tracked resource is marked
failed, and to success (`none`) otherwise. -/
def finalRunVerdict (mt : multitracker) : Option String :=
  if hasFailedTrackingResources mt then
    some (formatFailedTrackingResourcesError mt)
  else
    none

/-! ## PrintStatusReport

Each `display.OutF(format, args...)` call is embedded as one emitted string
chunk (the formatted text, ANSI colour escapes elided). -/

/-- The condition-rendering loop body shared by the pod / stateful set /
daemon set / job sections (up to four `OutF` calls per condition). -/
def renderConditionChunks (cond : ResourceCondition) : List String :=
  ["│   - " ++ cond.LastTransitionTime ++ " " ++ cond.Type_ ++ ":" ++ cond.Status]
    ++ (if cond.Reason ≠ "" then [" " ++ cond.Reason] else [])
    ++ (if cond.Message ≠ "" then [" " ++ cond.Message] else [])
    ++ ["\n"]

/-- The pods-statuses section body for one pod. -/
def renderPodStatusChunks (name : String) (status : PodStatus) : List String :=
  ["├ po/" ++ name ++ "\n"]
    ++ (if status.Phase ≠ "" then ["│   Phase:" ++ status.Phase ++ "\n"] else [])
    ++ (if status.Conditions.length > 0 then ["│   Conditions:\n"] else [])
    ++ status.Conditions.flatMap renderConditionChunks

/-- The Go zero value of `MultitrackSpec`, produced by a read of
`mt.DeploymentsSpecs[name]` for an absent key. -/
def zeroMultitrackSpec : MultitrackSpec :=
  { ResourceName := "", Namespace := "", FailMode := "",
    AllowFailuresCount := none, FailureThresholdSeconds := none,
    LogWatchRegex := none, LogWatchRegexByContainerName := [],
    ShowLogsUntil := "", SkipLogsForContainers := [],
    ShowLogsOnlyForContainers := [] }

/-- One emitted deployment message chunk, `OutF("│   %s\n", mark+message)`
with `mark` being `"↻  "` (progressing) or `"✅ "` (ready). -/
def msgChunk (mark msg : String) : String :=
  "│   " ++ mark ++ msg ++ "\n"

/-- The shared shape of the two deployment message loops (progressing "↻  ",
ready "✅ "): emit each satisfied condition's message at most once,
first-seen-wins on the shown-messages set threaded through `acc.2`. -/
def dedupMessageFold (mark : String) (conds : List DeployCheckCondition)
    (acc : List String × List String) : List String × List String :=
  conds.foldl (fun acc cond =>
    if cond.IsSatisfied then
      if acc.2.contains cond.Message then acc
      else (acc.1 ++ [msgChunk mark cond.Message], acc.2 ++ [cond.Message])
    else acc) acc

/-- The `var resource string` colour/priority classification per fail mode
(colours elided; an unmatched fail mode leaves the Go string variable at its
zero value `""`). -/
def deployResourceLabel (spec : MultitrackSpec) (name : String)
    (status : DeploymentStatus) : String :=
  if spec.FailMode = FailWholeDeployProcessImmediately then
    if status.ReadyStatus.IsReady then "deploy/" ++ name
    else if status.IsFailed then "deploy/" ++ name
    else "deploy/" ++ name
  else if spec.FailMode = IgnoreAndContinueDeployProcess then
    if status.ReadyStatus.IsReady then "deploy/" ++ name
    else "deploy/" ++ name
  else if spec.FailMode = HopeUntilEndOfDeployProcess then
    if status.ReadyStatus.IsReady then "deploy/" ++ name
    else "deploy/" ++ name
  else ""

/-- The failed-pod sub-status loop of the deployment section. -/
def deployFailedPodChunks (status : DeploymentStatus) : List String :=
  status.Pods.flatMap (fun p =>
    if p.2.IsFailed then
      ["│   ❌ pod/" ++ p.1 ++ " " ++ p.2.FailedReason ++ "\n"]
    else [])

/-- The `unreadyMsgs` block of the deployment section. -/
def deployUnreadyChunks (status : DeploymentStatus) : List String :=
  let unreadyMsgs :=
    (status.ReadyStatus.ReadyConditions.filter (fun c => !c.IsSatisfied)).map
      (fun c => c.Message)
  if unreadyMsgs.length > 0 then
    ["│   ⌚ " ++ String.intercalate ", " unreadyMsgs ++ "\n"]
  else []

/-- The deployments-statuses section body for one deployment: emitted chunks
plus the updated shown-messages set of that deployment. -/
def renderDeploymentStatusChunks (spec : MultitrackSpec) (name : String)
    (status : DeploymentStatus) (shown : List String) :
    List String × List String :=
  let headChunk := "├ " ++ deployResourceLabel spec name status ++ "\n"
  if status.IsFailed then
    ([headChunk, "│   ❌ " ++ status.FailedReason ++ "\n"]
      ++ deployFailedPodChunks status, shown)
  else
    let prog := dedupMessageFold "↻  "
      status.ReadyStatus.ProgressingConditions (([] : List String), shown)
    let ready := dedupMessageFold "✅ "
      status.ReadyStatus.ReadyConditions (([] : List String), prog.2)
    ([headChunk] ++ prog.1 ++ deployUnreadyChunks status ++ ready.1
      ++ deployFailedPodChunks status, ready.2)

/-- One iteration of the deployments-statuses loop: ensure the shown-messages
entry exists (lines 373-375), read the spec (Go zero value on a miss), render,
and store the grown shown-messages set. -/
def renderDeploymentsSectionStep (specs : List (String × MultitrackSpec))
    (acc : List String × List (String × List String))
    (e : String × DeploymentStatus) :
    List String × List (String × List String) :=
  let name := e.1
  let shownMap :=
    match assocFind acc.2 name with
    | none => assocSet acc.2 name []
    | some _ => acc.2
  let spec := (assocFind specs name).getD zeroMultitrackSpec
  let shown := (assocFind shownMap name).getD []
  let r := renderDeploymentStatusChunks spec name e.2 shown
  (acc.1 ++ r.1, assocSet shownMap name r.2)

/-- The whole deployments-statuses section: chunks plus the updated
`ShownDeploymentMessages` map. -/
def renderDeploymentsSection (specs : List (String × MultitrackSpec))
    (statuses : List (String × DeploymentStatus))
    (shownMap : List (String × List String)) :
    List String × List (String × List String) :=
  statuses.foldl (renderDeploymentsSectionStep specs) (([] : List String), shownMap)

/-- The stateful-sets-statuses section body for one stateful set. -/
def renderStatefulSetStatusChunks (name : String) (status : StatefulSetStatus) :
    List String :=
  ["├ sts/" ++ name ++ "\n",
    "│   Replicas:" ++ toString status.Replicas
      ++ " ReadyReplicas:" ++ toString status.ReadyReplicas
      ++ " CurrentReplicas:" ++ toString status.CurrentReplicas
      ++ " UpdatedReplicas:" ++ toString status.UpdatedReplicas ++ "\n"]
    ++ (if status.Conditions.length > 0 then ["│   Conditions:\n"] else [])
    ++ status.Conditions.flatMap renderConditionChunks

/-- The daemon-sets-statuses section body for one daemon set. -/
def renderDaemonSetStatusChunks (name : String) (status : DaemonSetStatus) :
    List String :=
  ["├ ds/" ++ name ++ "\n",
    "│   CurrentNumberScheduled:" ++ toString status.CurrentNumberScheduled
      ++ " NumberReady:" ++ toString status.NumberReady
      ++ " NumberAvailable:" ++ toString status.NumberAvailable
      ++ " NumberUnavailable:" ++ toString status.NumberUnavailable ++ "\n"]
    ++ (if status.Conditions.length > 0 then ["│   Conditions:\n"] else [])
    ++ status.Conditions.flatMap renderConditionChunks

/-- The jobs-statuses section body for one job. -/
def renderJobStatusChunks (name : String) (status : JobStatus) : List String :=
  ["├ job/" ++ name ++ "\n",
    "│   Active:" ++ toString status.Active
      ++ " Succeeded:" ++ toString status.Succeeded
      ++ " Failed:" ++ toString status.Failed ++ "\n",
    "│   StartTime:" ++ status.StartTime
      ++ " CompletionTime:" ++ status.CompletionTime ++ "\n"]
    ++ (if status.Conditions.length > 0 then ["│   Conditions:\n"] else [])
    ++ status.Conditions.flatMap renderConditionChunks

/-- One of the five trailing loops flagging tracked resources with no status
snapshot received yet. -/
def renderUnavailableChunks {β : Type} (kind : String)
    (tracking : ResourceStates) (statuses : List (String × β)) : List String :=
  tracking.flatMap (fun e =>
    match assocFind statuses e.1 with
    | some _ => []
    | none => ["├ " ++ kind ++ "/" ++ e.1 ++ " status unavailable\n"])

/-- `func (mt *multitracker) PrintStatusReport() error`: the whole report
frame. Returns the updated tracker (grown `ShownDeploymentMessages`) and the
emitted chunks; the Go version fails only on sink I/O, embedded as
always-successful. -/
def PrintStatusReport (mt : multitracker) : multitracker × List String :=
  let headerChunk := "\n┌ Status Report\n"
  let podChunks := mt.PodsStatuses.flatMap (fun e => renderPodStatusChunks e.1 e.2)
  let dep := renderDeploymentsSection mt.DeploymentsSpecs
    mt.DeploymentsStatuses mt.ShownDeploymentMessages
  let stsChunks := mt.StatefulSetsStatuses.flatMap (fun e =>
    renderStatefulSetStatusChunks e.1 e.2)
  let dsChunks := mt.DaemonSetsStatuses.flatMap (fun e =>
    renderDaemonSetStatusChunks e.1 e.2)
  let jobChunks := mt.JobsStatuses.flatMap (fun e =>
    renderJobStatusChunks e.1 e.2)
  let unavailableChunks :=
    renderUnavailableChunks "po" mt.TrackingPods mt.PodsStatuses
      ++ renderUnavailableChunks "deploy" mt.TrackingDeployments mt.DeploymentsStatuses
      ++ renderUnavailableChunks "sts" mt.TrackingStatefulSets mt.StatefulSetsStatuses
      ++ renderUnavailableChunks "ds" mt.TrackingDaemonSets mt.DaemonSetsStatuses
      ++ renderUnavailableChunks "job" mt.TrackingJobs mt.JobsStatuses
  let footerChunk := "└ Status Report\n"
  ({ mt with ShownDeploymentMessages := dep.2 },
    [headerChunk] ++ podChunks ++ dep.1 ++ stsChunks ++ dsChunks ++ jobChunks
      ++ unavailableChunks ++ [footerChunk])

/-! ## Specification-side readings and concrete fixtures -/

/-- Specification-side reading of one loop of
`formatFailedTrackingResourcesError`: the failed entries of one tracked-set
map, each formatted as `"<kind>/<name> failed: <reason>"`. -/
def failedLines (kind : String) (states : ResourceStates) : List String :=
  (states.filter (fun e => e.2.IsFailed)).map
    (fun e => kind ++ "/" ++ e.1 ++ " failed: " ++ e.2.LastFailureReason)

/-- A tracker with exactly one tracked deployment (and its spec, status and
shown-messages entry), all other tables empty. -/
def singleDeploymentTracker (name : String) (spec : MultitrackSpec)
    (trackSt : multitrackerResourceState) (status : DeploymentStatus)
    (shown : List String) : multitracker :=
  { DeploymentsSpecs := [(name, spec)],
    TrackingPods := [], PodsStatuses := [],
    TrackingDeployments := [(name, trackSt)],
    DeploymentsStatuses := [(name, status)],
    ShownDeploymentMessages := [(name, shown)],
    TrackingStatefulSets := [], StatefulSetsStatuses := [],
    TrackingDaemonSets := [], DaemonSetsStatuses := [],
    TrackingJobs := [], JobsStatuses := [] }

/-- A normalized tracking spec used as a concrete evaluation input. -/
def demoSpec : MultitrackSpec :=
  { ResourceName := "backend", Namespace := "prod",
    FailMode := FailWholeDeployProcessImmediately,
    AllowFailuresCount := some 1, FailureThresholdSeconds := some 0,
    LogWatchRegex := none, LogWatchRegexByContainerName := [],
    ShowLogsUntil := PodIsReady, SkipLogsForContainers := [],
    ShowLogsOnlyForContainers := [] }

/-- The demo spec with `HopeUntilEndOfDeployProcess` and zero tolerance. -/
def demoHopeSpec : MultitrackSpec :=
  { demoSpec with
      FailMode := HopeUntilEndOfDeployProcess,
      AllowFailuresCount := some 0 }

/-- The demo spec with `IgnoreAndContinueDeployProcess` and zero tolerance. -/
def demoIgnoreSpec : MultitrackSpec :=
  { demoSpec with
      FailMode := IgnoreAndContinueDeployProcess,
      AllowFailuresCount := some 0 }

/-- The demo spec carrying a fail mode that matches none of the three
defined values. -/
def demoBadModeSpec : MultitrackSpec :=
  { demoSpec with FailMode := "NotAFailMode" }

/-- A freshly registered tracked-resource state, `&multitrackerResourceState{}`. -/
def freshState : multitrackerResourceState :=
  { IsFailed := false, LastFailureReason := "", FailuresCount := 0 }

/-- A one-entry tracked-set map holding the demo resource's fresh state. -/
def demoStates : ResourceStates := [("backend", freshState)]

/-- An in-progress deployment status with one satisfied progressing
condition, used as a concrete rendering input. -/
def demoDeploymentStatus : DeploymentStatus where
  IsFailed := false
  FailedReason := ""
  ReadyStatus :=
    { IsReady := false,
      ProgressingConditions := [{ IsSatisfied := true, Message := "waiting for rollout" }],
      ReadyConditions := [] }
  Pods := []

/-- A stateful set matching every condition of the partition>0 completeness
clause (revision split, current == partition, updated == desired − partition,
current generation) whose status replica counters do not match the desired
count. -/
def stsPartitionReplicasMismatch : appsv1.StatefulSet where
  Generation := 1
  Spec :=
    { Replicas := some 3,
      UpdateStrategy :=
        { Type_ := "RollingUpdate",
          RollingUpdate := some { Partition := some 1 } } }
  Status :=
    { ObservedGeneration := 1, Replicas := 0, ReadyReplicas := 0,
      CurrentReplicas := 1, UpdatedReplicas := 2,
      CurrentRevision := "v1", UpdateRevision := "v2" }

/-- The spec's partitioned-rollout snapshot `(desired=3, partition=1,
current=1, updated=2, currentRevision "v1", updateRevision "v2")`, with the
status replica counters at the desired count. -/
def stsPartitionSnapshot : appsv1.StatefulSet where
  Generation := 1
  Spec :=
    { Replicas := some 3,
      UpdateStrategy :=
        { Type_ := "RollingUpdate",
          RollingUpdate := some { Partition := some 1 } } }
  Status :=
    { ObservedGeneration := 1, Replicas := 3, ReadyReplicas := 3,
      CurrentReplicas := 1, UpdatedReplicas := 2,
      CurrentRevision := "v1", UpdateRevision := "v2" }

/-- A stateful set with an unrecognized update strategy whose spec update has
not been observed yet (`ObservedGeneration == 0`). -/
def stsUnknownStrategyStale : appsv1.StatefulSet where
  Generation := 2
  Spec :=
    { Replicas := some 1,
      UpdateStrategy := { Type_ := "FancyStrategy", RollingUpdate := none } }
  Status :=
    { ObservedGeneration := 0, Replicas := 1, ReadyReplicas := 1,
      CurrentReplicas := 1, UpdatedReplicas := 0,
      CurrentRevision := "a", UpdateRevision := "a" }

/-- A stateful set with an unrecognized update strategy, current generation
and matching replica counters. -/
def stsUnknownStrategyCurrent : appsv1.StatefulSet where
  Generation := 2
  Spec :=
    { Replicas := some 2,
      UpdateStrategy := { Type_ := "FancyStrategy", RollingUpdate := none } }
  Status :=
    { ObservedGeneration := 2, Replicas := 2, ReadyReplicas := 2,
      CurrentReplicas := 2, UpdatedReplicas := 0,
      CurrentRevision := "a", UpdateRevision := "a" }

/-! ## Map lemmas -/

variable {α : Type}

theorem assocFind_assocSet_self (l : List (String × α)) (k : String) (v : α) :
    assocFind (assocSet l k v) k = some v := by
  induction l with
  | nil => simp [assocSet, assocFind]
  | cons e rest ih =>
    by_cases h : e.1 = k <;> simp [assocSet, assocFind, h, ih]

theorem assocFind_assocSet_ne (l : List (String × α)) (k k' : String) (v : α)
    (h : k' ≠ k) : assocFind (assocSet l k v) k' = assocFind l k' := by
  induction l with
  | nil => simp [assocSet, assocFind, Ne.symm h]
  | cons e rest ih =>
    by_cases he : e.1 = k
    · simp [assocSet, assocFind, he, Ne.symm h]
    · by_cases he' : e.1 = k' <;> simp [assocSet, assocFind, he, he', h, ih]

theorem assocFind_assocErase_self (l : List (String × α)) (k : String) :
    assocFind (assocErase l k) k = none := by
  induction l with
  | nil => simp [assocErase, assocFind]
  | cons e rest ih =>
    by_cases h : e.1 = k <;> simp [assocErase, assocFind, h, ih]

theorem assocFind_assocErase_ne (l : List (String × α)) (k k' : String)
    (h : k' ≠ k) : assocFind (assocErase l k) k' = assocFind l k' := by
  induction l with
  | nil => simp [assocErase, assocFind]
  | cons e rest ih =>
    by_cases he : e.1 = k
    · simp [assocErase, assocFind, he, Ne.symm h, ih]
    · by_cases he' : e.1 = k' <;> simp [assocErase, assocFind, he, he', h, ih]

theorem assocSet_assocSet (l : List (String × α)) (k : String) (v w : α) :
    assocSet (assocSet l k v) k w = assocSet l k w := by
  induction l with
  | nil => simp [assocSet]
  | cons e rest ih =>
    by_cases h : e.1 = k <;> simp [assocSet, h, ih]

theorem assocErase_assocSet (l : List (String × α)) (k : String) (v : α) :
    assocErase (assocSet l k v) k = assocErase l k := by
  induction l with
  | nil => simp [assocSet, assocErase]
  | cons e rest ih =>
    by_cases h : e.1 = k <;> simp [assocSet, assocErase, h, ih]

theorem mem_of_assocFind_eq_some {l : List (String × α)} {k : String} {v : α}
    (h : assocFind l k = some v) : (k, v) ∈ l := by
  induction l with
  | nil => simp [assocFind] at h
  | cons e rest ih =>
    obtain ⟨k', v'⟩ := e
    by_cases he : k' = k
    · subst he
      simp [assocFind] at h
      subst h
      exact List.mem_cons_self _ _
    · simp [assocFind, he] at h
      exact List.mem_cons_of_mem _ (ih h)

theorem not_mem_assocErase_self (l : List (String × α)) (k : String) (v : α) :
    (k, v) ∉ assocErase l k := by
  induction l with
  | nil => simp [assocErase]
  | cons e rest ih =>
    obtain ⟨k', v'⟩ := e
    by_cases he : k' = k
    · simpa [assocErase, he] using ih
    · simp [assocErase, he, ih, Ne.symm he]

/-! ## Failure state machine: case analysis -/

theorem handleResourceFailure_cases (states : ResourceStates)
    (spec : MultitrackSpec) (reason : String)
    (st : multitrackerResourceState) (a : Int)
    (hfind : assocFind states spec.ResourceName = some st)
    (hallow : spec.AllowFailuresCount = some a) :
    handleResourceFailure states spec reason =
      (if st.FailuresCount + 1 ≤ a then
        some (assocSet states spec.ResourceName
          { st with FailuresCount := st.FailuresCount + 1 },
          FailureAction.continueTrack)
      else if spec.FailMode = FailWholeDeployProcessImmediately then
        some (assocSet states spec.ResourceName
          { IsFailed := true, LastFailureReason := reason,
            FailuresCount := st.FailuresCount + 1 },
          FailureAction.stopTrack)
      else if spec.FailMode = HopeUntilEndOfDeployProcess then
        some (assocSet states spec.ResourceName
          { IsFailed := true, LastFailureReason := reason,
            FailuresCount := st.FailuresCount + 1 },
          FailureAction.continueTrack)
      else if spec.FailMode = IgnoreAndContinueDeployProcess then
        some (assocErase states spec.ResourceName, FailureAction.stopTrack)
      else none) := by
  simp only [handleResourceFailure, hfind, hallow, assocSet_assocSet,
    assocErase_assocSet]

/-! ## Aggregation lemmas -/

theorem foldl_skip_append {β : Type} (p : β → Bool) (f : β → String)
    (l : List β) (acc : List String) :
    l.foldl (fun acc e => if !p e then acc else acc ++ [f e]) acc
      = acc ++ (l.filter p).map f := by
  induction l generalizing acc with
  | nil => simp
  | cons e rest ih =>
    simp only [List.foldl_cons]
    cases h : p e <;>
      rw [ih] <;> simp [h, List.filter_cons, List.append_assoc]

theorem failedTrackingResourcesMsgParts_eq (mt : multitracker) :
    failedTrackingResourcesMsgParts mt =
      failedLines "po" mt.TrackingPods
        ++ failedLines "deploy" mt.TrackingDeployments
        ++ failedLines "sts" mt.TrackingStatefulSets
        ++ failedLines "ds" mt.TrackingDaemonSets
        ++ failedLines "job" mt.TrackingJobs := by
  unfold failedTrackingResourcesMsgParts
  simp only [foldl_skip_append]
  simp [failedLines, List.append_assoc]

theorem mem_failedLines_iff (kind : String) (states : ResourceStates)
    (s : String) :
    s ∈ failedLines kind states ↔
      ∃ name st, (name, st) ∈ states ∧ st.IsFailed = true ∧
        s = kind ++ "/" ++ name ++ " failed: " ++ st.LastFailureReason := by
  simp only [failedLines, List.mem_map, List.mem_filter]
  constructor
  · rintro ⟨e, ⟨hmem, hfail⟩, rfl⟩
    exact ⟨e.1, e.2, hmem, hfail, rfl⟩
  · rintro ⟨name, st, hmem, hfail, rfl⟩
    exact ⟨(name, st), ⟨hmem, hfail⟩, rfl⟩

theorem hasFailedTrackingResources_iff (mt : multitracker) :
    hasFailedTrackingResources mt = true ↔
      ∃ states ∈ mt.allTrackingStates, ∃ e ∈ states, e.2.IsFailed = true := by
  simp [hasFailedTrackingResources, List.any_eq_true]

theorem finalRunVerdict_isSome (mt : multitracker) :
    (finalRunVerdict mt).isSome = hasFailedTrackingResources mt := by
  by_cases h : hasFailedTrackingResources mt <;> simp [finalRunVerdict, h]

theorem any_isFailed_assocSet (states : ResourceStates) (k : String)
    (st0 st1 : multitrackerResourceState)
    (hfind : assocFind states k = some st0)
    (h : st1.IsFailed = st0.IsFailed) :
    ((assocSet states k st1).any fun e => e.2.IsFailed) =
      (states.any fun e => e.2.IsFailed) := by
  induction states with
  | nil => simp [assocFind] at hfind
  | cons e rest ih =>
    by_cases he : e.1 = k
    · simp [assocFind, he] at hfind
      simp [assocSet, he, h, hfind]
    · simp [assocFind, he] at hfind
      simp [assocSet, he, ih hfind]

/-! ## Claim theorems: spec normalizer and failure state machine -/

/-- C9: `setDefaultSpecValues` fills only the absent optional fields — fail
mode defaults to `FailWholeDeployProcessImmediately`, `AllowFailuresCount` to
1, `FailureThresholdSeconds` to 0, `ShowLogsUntil` to `PodIsReady` — while
fields already present and all other fields are returned unchanged; the
operation is total (never errors). -/
theorem setDefaultSpecValues_spec (spec : MultitrackSpec) :
    (setDefaultSpecValues spec).ResourceName = spec.ResourceName ∧
    (setDefaultSpecValues spec).Namespace = spec.Namespace ∧
    (setDefaultSpecValues spec).LogWatchRegex = spec.LogWatchRegex ∧
    (setDefaultSpecValues spec).LogWatchRegexByContainerName =
      spec.LogWatchRegexByContainerName ∧
    (setDefaultSpecValues spec).SkipLogsForContainers =
      spec.SkipLogsForContainers ∧
    (setDefaultSpecValues spec).ShowLogsOnlyForContainers =
      spec.ShowLogsOnlyForContainers ∧
    (setDefaultSpecValues spec).FailMode =
      (if spec.FailMode = "" then FailWholeDeployProcessImmediately
        else spec.FailMode) ∧
    (setDefaultSpecValues spec).AllowFailuresCount =
      (if spec.AllowFailuresCount = none then some 1
        else spec.AllowFailuresCount) ∧
    (setDefaultSpecValues spec).FailureThresholdSeconds =
      (if spec.FailureThresholdSeconds = none then some 0
        else spec.FailureThresholdSeconds) ∧
    (setDefaultSpecValues spec).ShowLogsUntil =
      (if spec.ShowLogsUntil = "" then PodIsReady else spec.ShowLogsUntil) := by
  by_cases h1 : spec.FailMode = "" <;>
    by_cases h2 : spec.AllowFailuresCount = none <;>
      by_cases h3 : spec.FailureThresholdSeconds = none <;>
        by_cases h4 : spec.ShowLogsUntil = "" <;>
          simp [setDefaultSpecValues, h1, h2, h3, h4,
            FailWholeDeployProcessImmediately, PodIsReady]

/-- C4: every failure notification handled by `handleResourceFailure`
increments the resource's `FailuresCount` by exactly 1 (and leaves every
other resource's entry untouched), and when the incremented count is still
within `AllowFailuresCount` the failure is absorbed: continue-watching
action, `IsFailed` and `LastFailureReason` unchanged, tracked set unchanged. -/
theorem handleResourceFailure_increment_and_absorb
    (states : ResourceStates) (spec : MultitrackSpec) (reason : String)
    (st : multitrackerResourceState) (a : Int)
    (hfind : assocFind states spec.ResourceName = some st)
    (hallow : spec.AllowFailuresCount = some a) :
    (∀ states' act,
      handleResourceFailure states spec reason = some (states', act) →
      (∀ st', assocFind states' spec.ResourceName = some st' →
        st'.FailuresCount = st.FailuresCount + 1) ∧
      (∀ n, n ≠ spec.ResourceName →
        assocFind states' n = assocFind states n)) ∧
    (st.FailuresCount + 1 ≤ a →
      handleResourceFailure states spec reason =
        some (assocSet states spec.ResourceName
          { st with FailuresCount := st.FailuresCount + 1 },
          FailureAction.continueTrack) ∧
      assocFind (assocSet states spec.ResourceName
          { st with FailuresCount := st.FailuresCount + 1 })
          spec.ResourceName =
        some { IsFailed := st.IsFailed,
               LastFailureReason := st.LastFailureReason,
               FailuresCount := st.FailuresCount + 1 }) := by
  rw [handleResourceFailure_cases states spec reason st a hfind hallow]
  constructor
  · intro states' act h
    by_cases hle : st.FailuresCount + 1 ≤ a
    · rw [if_pos hle] at h
      simp only [Option.some.injEq, Prod.mk.injEq] at h
      obtain ⟨rfl, rfl⟩ := h
      refine ⟨?_, ?_⟩
      · intro st' hst'
        rw [assocFind_assocSet_self] at hst'
        cases hst'
        rfl
      · intro n hn
        exact assocFind_assocSet_ne _ _ _ _ hn
    · rw [if_neg hle] at h
      by_cases hm1 : spec.FailMode = FailWholeDeployProcessImmediately
      · rw [if_pos hm1] at h
        simp only [Option.some.injEq, Prod.mk.injEq] at h
        obtain ⟨rfl, rfl⟩ := h
        refine ⟨?_, fun n hn => assocFind_assocSet_ne _ _ _ _ hn⟩
        intro st' hst'
        rw [assocFind_assocSet_self] at hst'
        cases hst'
        rfl
      · rw [if_neg hm1] at h
        by_cases hm2 : spec.FailMode = HopeUntilEndOfDeployProcess
        · rw [if_pos hm2] at h
          simp only [Option.some.injEq, Prod.mk.injEq] at h
          obtain ⟨rfl, rfl⟩ := h
          refine ⟨?_, fun n hn => assocFind_assocSet_ne _ _ _ _ hn⟩
          intro st' hst'
          rw [assocFind_assocSet_self] at hst'
          cases hst'
          rfl
        · rw [if_neg hm2] at h
          by_cases hm3 : spec.FailMode = IgnoreAndContinueDeployProcess
          · rw [if_pos hm3] at h
            simp only [Option.some.injEq, Prod.mk.injEq] at h
            obtain ⟨rfl, rfl⟩ := h
            refine ⟨?_, fun n hn => assocFind_assocErase_ne _ _ _ hn⟩
            intro st' hst'
            rw [assocFind_assocErase_self] at hst'
            cases hst'
          · rw [if_neg hm3] at h
            cases h
  · intro hle
    rw [if_pos hle]
    refine ⟨rfl, ?_⟩
    rw [assocFind_assocSet_self]

/-- C10: for a fail mode that is none of the three defined values,
`handleResourceFailure` does not reach the `panic` branch as long as the
incremented count is within tolerance — the failure is absorbed with the
continue action — and the panic branch is reached exactly when the count
exceeds the tolerance. -/
theorem handleResourceFailure_badFailMode
    (states : ResourceStates) (spec : MultitrackSpec) (reason : String)
    (st : multitrackerResourceState) (a : Int)
    (hfind : assocFind states spec.ResourceName = some st)
    (hallow : spec.AllowFailuresCount = some a)
    (hm1 : spec.FailMode ≠ FailWholeDeployProcessImmediately)
    (hm2 : spec.FailMode ≠ HopeUntilEndOfDeployProcess)
    (hm3 : spec.FailMode ≠ IgnoreAndContinueDeployProcess) :
    (st.FailuresCount + 1 ≤ a →
      handleResourceFailure states spec reason =
        some (assocSet states spec.ResourceName
          { st with FailuresCount := st.FailuresCount + 1 },
          FailureAction.continueTrack)) ∧
    (a < st.FailuresCount + 1 →
      handleResourceFailure states spec reason = none) := by
  rw [handleResourceFailure_cases states spec reason st a hfind hallow]
  constructor
  · intro hle
    rw [if_pos hle]
  · intro hgt
    rw [if_neg (by omega), if_neg hm1, if_neg hm2, if_neg hm3]

/-- C2: with fail mode `HopeUntilEndOfDeployProcess` and the failure count
past the tolerance, `handleResourceFailure` latches `IsFailed := true` with
the reason, keeps the resource in the tracked set, and returns the
keep-watching action; and the run's final verdict, decided once all watchers
finish, is failure iff some tracked resource still has `IsFailed = true`. -/
theorem hopeUntilEnd_latch_and_verdict
    (states : ResourceStates) (spec : MultitrackSpec) (reason : String)
    (st : multitrackerResourceState) (a : Int)
    (hmode : spec.FailMode = HopeUntilEndOfDeployProcess)
    (hallow : spec.AllowFailuresCount = some a)
    (hfind : assocFind states spec.ResourceName = some st)
    (hexceed : a < st.FailuresCount + 1) :
    handleResourceFailure states spec reason =
      some (assocSet states spec.ResourceName
        { IsFailed := true, LastFailureReason := reason,
          FailuresCount := st.FailuresCount + 1 },
        FailureAction.continueTrack) ∧
    assocFind (assocSet states spec.ResourceName
        { IsFailed := true, LastFailureReason := reason,
          FailuresCount := st.FailuresCount + 1 }) spec.ResourceName =
      some { IsFailed := true, LastFailureReason := reason,
             FailuresCount := st.FailuresCount + 1 } ∧
    (∀ mt : multitracker, (finalRunVerdict mt).isSome = true ↔
      ∃ sts ∈ mt.allTrackingStates, ∃ e ∈ sts, e.2.IsFailed = true) := by
  refine ⟨?_, assocFind_assocSet_self _ _ _, ?_⟩
  · rw [handleResourceFailure_cases states spec reason st a hfind hallow,
      if_neg (by omega),
      if_neg (by rw [hmode]; decide),
      if_pos hmode]
  · intro mt
    rw [finalRunVerdict_isSome]
    exact hasFailedTrackingResources_iff mt

/-- C3: with fail mode `IgnoreAndContinueDeployProcess` and the failure count
past the tolerance, `handleResourceFailure` removes the resource's state from
the tracked set entirely and stops its watcher; the dropped resource can no
longer generate a failed line of the aggregated error (every failed deploy
line comes from a differently named entry), and it cannot make the run fail:
a tracker whose remaining entries are all non-failed resolves to success with
an empty failed-lines list. -/
theorem ignoreAndContinue_dismiss
    (states : ResourceStates) (spec : MultitrackSpec) (reason : String)
    (st : multitrackerResourceState) (a : Int)
    (hmode : spec.FailMode = IgnoreAndContinueDeployProcess)
    (hallow : spec.AllowFailuresCount = some a)
    (hfind : assocFind states spec.ResourceName = some st)
    (hexceed : a < st.FailuresCount + 1) :
    handleResourceFailure states spec reason =
      some (assocErase states spec.ResourceName, FailureAction.stopTrack) ∧
    (∀ v, (spec.ResourceName, v) ∉ assocErase states spec.ResourceName) ∧
    (∀ n, n ≠ spec.ResourceName →
      assocFind (assocErase states spec.ResourceName) n =
        assocFind states n) ∧
    (∀ mt : multitracker,
      mt.TrackingDeployments = assocErase states spec.ResourceName →
      ∀ s ∈ failedLines "deploy" mt.TrackingDeployments,
        ∃ n st', n ≠ spec.ResourceName ∧ (n, st') ∈ mt.TrackingDeployments ∧
          st'.IsFailed = true ∧
          s = "deploy" ++ "/" ++ n ++ " failed: " ++ st'.LastFailureReason) ∧
    (∀ mt : multitracker,
      (∀ sts ∈ mt.allTrackingStates, ∀ e ∈ sts, e.2.IsFailed = false) →
      finalRunVerdict mt = none ∧ failedTrackingResourcesMsgParts mt = []) := by
  refine ⟨?_, fun v => not_mem_assocErase_self states spec.ResourceName v,
    fun n hn => assocFind_assocErase_ne _ _ _ hn, ?_, ?_⟩
  · rw [handleResourceFailure_cases states spec reason st a hfind hallow,
      if_neg (by omega),
      if_neg (by rw [hmode]; decide),
      if_neg (by rw [hmode]; decide),
      if_pos hmode]
  · intro mt hmt s hs
    rw [mem_failedLines_iff] at hs
    obtain ⟨n, st', hmem, hfail, rfl⟩ := hs
    refine ⟨n, st', ?_, hmem, hfail, rfl⟩
    intro hEq
    subst hEq
    rw [hmt] at hmem
    exact not_mem_assocErase_self states spec.ResourceName st' hmem
  · intro mt hall
    have hnf : hasFailedTrackingResources mt = false := by
      by_contra hc
      have := (hasFailedTrackingResources_iff mt).mp
        (by revert hc; cases hasFailedTrackingResources mt <;> simp)
      obtain ⟨sts', hsts', e, he, hef⟩ := this
      have := hall sts' hsts' e he
      rw [this] at hef
      cases hef
    have hlines : ∀ kind (sts' : ResourceStates), (∀ e ∈ sts', e.2.IsFailed = false) →
        failedLines kind sts' = [] := by
      intro kind sts' h
      have : sts'.filter (fun e => e.2.IsFailed) = [] := by
        rw [List.filter_eq_nil_iff]
        intro e he
        simp [h e he]
      simp [failedLines, this]
    refine ⟨by simp [finalRunVerdict, hnf], ?_⟩
    rw [failedTrackingResourcesMsgParts_eq]
    rw [hlines "po" _ (hall mt.TrackingPods (by simp [multitracker.allTrackingStates])),
      hlines "deploy" _ (hall mt.TrackingDeployments (by simp [multitracker.allTrackingStates])),
      hlines "sts" _ (hall mt.TrackingStatefulSets (by simp [multitracker.allTrackingStates])),
      hlines "ds" _ (hall mt.TrackingDaemonSets (by simp [multitracker.allTrackingStates])),
      hlines "job" _ (hall mt.TrackingJobs (by simp [multitracker.allTrackingStates]))]
    rfl

/-- C1: with fail mode `FailWholeDeployProcessImmediately` and
`AllowFailuresCount = 1`, a first failure of a freshly registered resource is
absorbed (continue action, `IsFailed` untouched, run verdict unchanged), and
the second failure marks the resource failed, records the reason, returns the
stop action, and any tracker holding that state resolves to the aggregated
error containing that resource's last reason line. -/
theorem failImmediately_two_failures
    (states : ResourceStates) (spec : MultitrackSpec) (r1 r2 : String)
    (st0 : multitrackerResourceState)
    (hmode : spec.FailMode = FailWholeDeployProcessImmediately)
    (hallow : spec.AllowFailuresCount = some 1)
    (hfind : assocFind states spec.ResourceName = some st0)
    (hcnt : st0.FailuresCount = 0) :
    handleResourceFailure states spec r1 =
      some (assocSet states spec.ResourceName
        { st0 with FailuresCount := 1 }, FailureAction.continueTrack) ∧
    ({ st0 with FailuresCount := 1 } :
      multitrackerResourceState).IsFailed = st0.IsFailed ∧
    (∀ mt : multitracker, mt.TrackingDeployments = states →
      hasFailedTrackingResources { mt with TrackingDeployments := assocSet states spec.ResourceName { st0 with FailuresCount := 1 } } = hasFailedTrackingResources mt) ∧
    handleResourceFailure
        (assocSet states spec.ResourceName { st0 with FailuresCount := 1 })
        spec r2 =
      some (assocSet states spec.ResourceName
        { IsFailed := true, LastFailureReason := r2, FailuresCount := 2 },
        FailureAction.stopTrack) ∧
    (∀ mt : multitracker,
      mt.TrackingDeployments =
        assocSet states spec.ResourceName
          { IsFailed := true, LastFailureReason := r2, FailuresCount := 2 } →
      finalRunVerdict mt = some (formatFailedTrackingResourcesError mt) ∧
      ("deploy" ++ "/" ++ spec.ResourceName ++ " failed: " ++ r2)
        ∈ failedTrackingResourcesMsgParts mt) := by
  refine ⟨?_, rfl, ?_, ?_, ?_⟩
  · rw [handleResourceFailure_cases states spec r1 st0 1 hfind hallow,
      if_pos (by omega)]
    rw [show st0.FailuresCount + 1 = 1 from by omega]
  · intro mt hmt
    subst hmt
    simp only [hasFailedTrackingResources, multitracker.allTrackingStates,
      List.any_cons, List.any_nil, Bool.or_false]
    rw [any_isFailed_assocSet mt.TrackingDeployments spec.ResourceName st0
      { IsFailed := st0.IsFailed, LastFailureReason := st0.LastFailureReason,
        FailuresCount := 1 } hfind rfl]
  · have hfind1 : assocFind
        (assocSet states spec.ResourceName { st0 with FailuresCount := 1 })
        spec.ResourceName = some { st0 with FailuresCount := 1 } :=
      assocFind_assocSet_self _ _ _
    rw [handleResourceFailure_cases _ spec r2 _ 1 hfind1 hallow]
    rw [if_neg (by simp), if_pos hmode, assocSet_assocSet]
    norm_num
  · intro mt hmt
    have hmem : (spec.ResourceName,
        ({ IsFailed := true, LastFailureReason := r2, FailuresCount := 2 } :
          multitrackerResourceState)) ∈ mt.TrackingDeployments := by
      rw [hmt]
      exact mem_of_assocFind_eq_some (assocFind_assocSet_self _ _ _)
    have hfl : hasFailedTrackingResources mt = true :=
      (hasFailedTrackingResources_iff mt).mpr
        ⟨mt.TrackingDeployments, by simp [multitracker.allTrackingStates],
          _, hmem, rfl⟩
    refine ⟨by simp [finalRunVerdict, hfl], ?_⟩
    rw [failedTrackingResourcesMsgParts_eq]
    simp only [List.mem_append]
    exact Or.inl (Or.inl (Or.inl (Or.inr
      ((mem_failedLines_iff "deploy" mt.TrackingDeployments _).mpr
        ⟨spec.ResourceName, _, hmem, rfl, rfl⟩))))

/-- C5: the aggregated error is the newline-join of the failed-resource
lines, and a line occurs among them iff some tracked resource of one of the
five kinds has `IsFailed = true`, formatted `"<kind>/<name> failed: <reason>"`
with that resource's last recorded reason; non-failed or removed resources
contribute nothing. -/
theorem formatFailedTrackingResourcesError_spec (mt : multitracker) :
    formatFailedTrackingResourcesError mt =
      String.intercalate "\n" (failedTrackingResourcesMsgParts mt) ∧
    failedTrackingResourcesMsgParts mt =
      failedLines "po" mt.TrackingPods
        ++ failedLines "deploy" mt.TrackingDeployments
        ++ failedLines "sts" mt.TrackingStatefulSets
        ++ failedLines "ds" mt.TrackingDaemonSets
        ++ failedLines "job" mt.TrackingJobs ∧
    ∀ s, s ∈ failedTrackingResourcesMsgParts mt ↔
      ((∃ n st, (n, st) ∈ mt.TrackingPods ∧ st.IsFailed = true ∧
          s = "po" ++ "/" ++ n ++ " failed: " ++ st.LastFailureReason) ∨
        (∃ n st, (n, st) ∈ mt.TrackingDeployments ∧ st.IsFailed = true ∧
          s = "deploy" ++ "/" ++ n ++ " failed: " ++ st.LastFailureReason) ∨
        (∃ n st, (n, st) ∈ mt.TrackingStatefulSets ∧ st.IsFailed = true ∧
          s = "sts" ++ "/" ++ n ++ " failed: " ++ st.LastFailureReason) ∨
        (∃ n st, (n, st) ∈ mt.TrackingDaemonSets ∧ st.IsFailed = true ∧
          s = "ds" ++ "/" ++ n ++ " failed: " ++ st.LastFailureReason) ∨
        (∃ n st, (n, st) ∈ mt.TrackingJobs ∧ st.IsFailed = true ∧
          s = "job" ++ "/" ++ n ++ " failed: " ++ st.LastFailureReason)) := by
  refine ⟨rfl, failedTrackingResourcesMsgParts_eq mt, ?_⟩
  intro s
  rw [failedTrackingResourcesMsgParts_eq]
  simp only [List.mem_append, mem_failedLines_iff, or_assoc]

/-! ## Witnesses for the state-machine claims -/

theorem handleResourceFailure_increment_and_absorb_witness :
    (assocFind demoStates demoSpec.ResourceName = some freshState ∧
      demoSpec.AllowFailuresCount = some 1) ∧
    ((∀ states' act,
      handleResourceFailure demoStates demoSpec "oops" = some (states', act) →
      (∀ st', assocFind states' demoSpec.ResourceName = some st' →
        st'.FailuresCount = freshState.FailuresCount + 1) ∧
      (∀ n, n ≠ demoSpec.ResourceName →
        assocFind states' n = assocFind demoStates n)) ∧
    (freshState.FailuresCount + 1 ≤ 1 →
      handleResourceFailure demoStates demoSpec "oops" =
        some (assocSet demoStates demoSpec.ResourceName
          { freshState with FailuresCount := freshState.FailuresCount + 1 },
          FailureAction.continueTrack) ∧
      assocFind (assocSet demoStates demoSpec.ResourceName
          { freshState with FailuresCount := freshState.FailuresCount + 1 })
          demoSpec.ResourceName =
        some { IsFailed := freshState.IsFailed,
               LastFailureReason := freshState.LastFailureReason,
               FailuresCount := freshState.FailuresCount + 1 })) :=
  ⟨⟨by decide, by decide⟩,
    handleResourceFailure_increment_and_absorb demoStates demoSpec "oops"
      freshState 1 (by decide) (by decide)⟩

theorem handleResourceFailure_badFailMode_witness :
    (assocFind demoStates demoBadModeSpec.ResourceName = some freshState ∧
      demoBadModeSpec.AllowFailuresCount = some 1 ∧
      demoBadModeSpec.FailMode ≠ FailWholeDeployProcessImmediately ∧
      demoBadModeSpec.FailMode ≠ HopeUntilEndOfDeployProcess ∧
      demoBadModeSpec.FailMode ≠ IgnoreAndContinueDeployProcess) ∧
    ((freshState.FailuresCount + 1 ≤ 1 →
      handleResourceFailure demoStates demoBadModeSpec "oops" =
        some (assocSet demoStates demoBadModeSpec.ResourceName
          { freshState with FailuresCount := freshState.FailuresCount + 1 },
          FailureAction.continueTrack)) ∧
    ((1 : Int) < freshState.FailuresCount + 1 →
      handleResourceFailure demoStates demoBadModeSpec "oops" = none)) :=
  ⟨⟨by decide, by decide, by decide, by decide, by decide⟩,
    handleResourceFailure_badFailMode demoStates demoBadModeSpec "oops"
      freshState 1 (by decide) (by decide) (by decide) (by decide) (by decide)⟩

theorem hopeUntilEnd_latch_and_verdict_witness :
    (demoHopeSpec.FailMode = HopeUntilEndOfDeployProcess ∧
      demoHopeSpec.AllowFailuresCount = some 0 ∧
      assocFind demoStates demoHopeSpec.ResourceName = some freshState ∧
      (0 : Int) < freshState.FailuresCount + 1) ∧
    (handleResourceFailure demoStates demoHopeSpec "crashloop" =
      some (assocSet demoStates demoHopeSpec.ResourceName
        { IsFailed := true, LastFailureReason := "crashloop",
          FailuresCount := freshState.FailuresCount + 1 },
        FailureAction.continueTrack) ∧
    assocFind (assocSet demoStates demoHopeSpec.ResourceName
        { IsFailed := true, LastFailureReason := "crashloop",
          FailuresCount := freshState.FailuresCount + 1 })
        demoHopeSpec.ResourceName =
      some { IsFailed := true, LastFailureReason := "crashloop",
             FailuresCount := freshState.FailuresCount + 1 } ∧
    (∀ mt : multitracker, (finalRunVerdict mt).isSome = true ↔
      ∃ sts ∈ mt.allTrackingStates, ∃ e ∈ sts, e.2.IsFailed = true)) :=
  ⟨⟨by decide, by decide, by decide, by decide⟩,
    hopeUntilEnd_latch_and_verdict demoStates demoHopeSpec "crashloop"
      freshState 0 (by decide) (by decide) (by decide) (by decide)⟩

theorem ignoreAndContinue_dismiss_witness :
    (demoIgnoreSpec.FailMode = IgnoreAndContinueDeployProcess ∧
      demoIgnoreSpec.AllowFailuresCount = some 0 ∧
      assocFind demoStates demoIgnoreSpec.ResourceName = some freshState ∧
      (0 : Int) < freshState.FailuresCount + 1) ∧
    (handleResourceFailure demoStates demoIgnoreSpec "crashloop" =
      some (assocErase demoStates demoIgnoreSpec.ResourceName,
        FailureAction.stopTrack) ∧
    (∀ v, (demoIgnoreSpec.ResourceName, v) ∉
      assocErase demoStates demoIgnoreSpec.ResourceName) ∧
    (∀ n, n ≠ demoIgnoreSpec.ResourceName →
      assocFind (assocErase demoStates demoIgnoreSpec.ResourceName) n =
        assocFind demoStates n) ∧
    (∀ mt : multitracker,
      mt.TrackingDeployments =
        assocErase demoStates demoIgnoreSpec.ResourceName →
      ∀ s ∈ failedLines "deploy" mt.TrackingDeployments,
        ∃ n st', n ≠ demoIgnoreSpec.ResourceName ∧
          (n, st') ∈ mt.TrackingDeployments ∧ st'.IsFailed = true ∧
          s = "deploy" ++ "/" ++ n ++ " failed: " ++ st'.LastFailureReason) ∧
    (∀ mt : multitracker,
      (∀ sts ∈ mt.allTrackingStates, ∀ e ∈ sts, e.2.IsFailed = false) →
      finalRunVerdict mt = none ∧ failedTrackingResourcesMsgParts mt = [])) :=
  ⟨⟨by decide, by decide, by decide, by decide⟩,
    ignoreAndContinue_dismiss demoStates demoIgnoreSpec "crashloop"
      freshState 0 (by decide) (by decide) (by decide) (by decide)⟩

theorem failImmediately_two_failures_witness :
    (demoSpec.FailMode = FailWholeDeployProcessImmediately ∧
      demoSpec.AllowFailuresCount = some 1 ∧
      assocFind demoStates demoSpec.ResourceName = some freshState ∧
      freshState.FailuresCount = 0) ∧
    (handleResourceFailure demoStates demoSpec "oops" =
      some (assocSet demoStates demoSpec.ResourceName
        { freshState with FailuresCount := 1 },
        FailureAction.continueTrack) ∧
    ({ freshState with FailuresCount := 1 } :
      multitrackerResourceState).IsFailed = freshState.IsFailed ∧
    (∀ mt : multitracker, mt.TrackingDeployments = demoStates →
      hasFailedTrackingResources { mt with TrackingDeployments := assocSet demoStates demoSpec.ResourceName { freshState with FailuresCount := 1 } } = hasFailedTrackingResources mt) ∧
    handleResourceFailure
        (assocSet demoStates demoSpec.ResourceName
          { freshState with FailuresCount := 1 }) demoSpec "crash" =
      some (assocSet demoStates demoSpec.ResourceName
        { IsFailed := true, LastFailureReason := "crash", FailuresCount := 2 },
        FailureAction.stopTrack) ∧
    (∀ mt : multitracker,
      mt.TrackingDeployments =
        assocSet demoStates demoSpec.ResourceName
          { IsFailed := true, LastFailureReason := "crash",
            FailuresCount := 2 } →
      finalRunVerdict mt = some (formatFailedTrackingResourcesError mt) ∧
      ("deploy" ++ "/" ++ demoSpec.ResourceName ++ " failed: " ++ "crash")
        ∈ failedTrackingResourcesMsgParts mt)) :=
  ⟨⟨by decide, by decide, by decide, by decide⟩,
    failImmediately_two_failures demoStates demoSpec "oops" "crash"
      freshState (by decide) (by decide) (by decide) (by decide)⟩

/-! ## Claim theorems: stateful set completeness -/

/-- C6 counterexample: a stateful set with a current (non-zero, matching)
observed generation, RollingUpdate strategy with partition 1 > 0, satisfying
the claim's entire iff right-hand side (revision split, current replicas ==
partition, updated replicas == desired − partition), for which
`StatefulSetComplete` still returns `false`: the code first requires
desired == status replicas == ready replicas, which the claim omits. -/
theorem statefulSetComplete_partition_claim_counterexample :
    (stsPartitionReplicasMismatch.Status.ObservedGeneration ≠ 0 ∧
      stsPartitionReplicasMismatch.Generation =
        stsPartitionReplicasMismatch.Status.ObservedGeneration ∧
      stsPartitionReplicasMismatch.Spec.UpdateStrategy.Type_ =
        appsv1.RollingUpdateStatefulSetStrategyType ∧
      stsPartitionReplicasMismatch.Spec.Replicas = some 3 ∧
      stsPartitionReplicasMismatch.Spec.UpdateStrategy.RollingUpdate =
        some { Partition := some 1 } ∧
      (0 : Int) < 1 ∧
      stsPartitionReplicasMismatch.Status.CurrentRevision ≠
        stsPartitionReplicasMismatch.Status.UpdateRevision ∧
      stsPartitionReplicasMismatch.Status.CurrentReplicas = 1 ∧
      stsPartitionReplicasMismatch.Status.UpdatedReplicas = 3 - 1) ∧
    StatefulSetComplete stsPartitionReplicasMismatch = false := by
  decide

/-- C6 (amended): for a stateful set with current (non-zero, matching)
observed generation, RollingUpdate strategy with partition p > 0, and —
as the code requires of every strategy — status replicas and ready replicas
both equal to the desired count, `StatefulSetComplete` returns true iff
current revision ≠ update revision, current replicas = p, and updated
replicas = desired − p; the spec's snapshot instance is covered by the
witness. -/
theorem statefulSetComplete_partition_amended (sts : appsv1.StatefulSet)
    (d p : Int) (ru : appsv1.RollingUpdateStatefulSetStrategy)
    (hg0 : sts.Status.ObservedGeneration ≠ 0)
    (hg : sts.Generation = sts.Status.ObservedGeneration)
    (hd : sts.Spec.Replicas = some d)
    (hR : sts.Status.Replicas = d)
    (hRR : sts.Status.ReadyReplicas = d)
    (hstrat : sts.Spec.UpdateStrategy.Type_ =
      appsv1.RollingUpdateStatefulSetStrategyType)
    (hru : sts.Spec.UpdateStrategy.RollingUpdate = some ru)
    (hpart : ru.Partition = some p)
    (hp : 0 < p) :
    StatefulSetComplete sts = true ↔
      (sts.Status.CurrentRevision ≠ sts.Status.UpdateRevision ∧
        sts.Status.CurrentReplicas = p ∧
        sts.Status.UpdatedReplicas = d - p) := by
  have hpne : p ≠ 0 := by omega
  by_cases hrev : sts.Status.UpdateRevision = sts.Status.CurrentRevision
  · simp [StatefulSetComplete, hstrat, hru, hpart, hd, hg, hR, hRR, hg0,
      hpne, hrev, appsv1.RollingUpdateStatefulSetStrategyType,
      appsv1.OnDeleteStatefulSetStrategyType]
  · have hrev' : ¬ sts.Status.CurrentRevision = sts.Status.UpdateRevision :=
      fun h => hrev h.symm
    simp [StatefulSetComplete, hstrat, hru, hpart, hd, hg, hR, hRR, hg0,
      hpne, hrev, hrev', appsv1.RollingUpdateStatefulSetStrategyType,
      appsv1.OnDeleteStatefulSetStrategyType]

theorem statefulSetComplete_partition_amended_witness :
    (stsPartitionSnapshot.Status.ObservedGeneration ≠ 0 ∧
      stsPartitionSnapshot.Generation =
        stsPartitionSnapshot.Status.ObservedGeneration ∧
      stsPartitionSnapshot.Spec.Replicas = some 3 ∧
      stsPartitionSnapshot.Status.Replicas = 3 ∧
      stsPartitionSnapshot.Status.ReadyReplicas = 3 ∧
      stsPartitionSnapshot.Spec.UpdateStrategy.Type_ =
        appsv1.RollingUpdateStatefulSetStrategyType ∧
      stsPartitionSnapshot.Spec.UpdateStrategy.RollingUpdate =
        some { Partition := some 1 } ∧
      (0 : Int) < 1) ∧
    StatefulSetComplete stsPartitionSnapshot = true :=
  ⟨by decide,
    (statefulSetComplete_partition_amended stsPartitionSnapshot 3 1
      { Partition := some 1 } (by decide) (by decide) (by decide) (by decide)
      (by decide) (by decide) (by decide) (by decide) (by decide)).mpr
      (by decide)⟩

/-- C7 counterexample: a stateful set with an unrecognized update strategy
for which `StatefulSetComplete` returns `false` (its spec update has not
been observed yet), contradicting the claim that every unknown-strategy
stateful set is treated as already complete. -/
theorem statefulSetComplete_unknownStrategy_counterexample :
    (stsUnknownStrategyStale.Spec.UpdateStrategy.Type_ ≠
        appsv1.RollingUpdateStatefulSetStrategyType ∧
      stsUnknownStrategyStale.Spec.UpdateStrategy.Type_ ≠
        appsv1.OnDeleteStatefulSetStrategyType) ∧
    StatefulSetComplete stsUnknownStrategyStale = false := by
  decide

/-- C7 (amended): an unknown update strategy is treated as already complete
(fail open) once the guards the code applies to every strategy hold: the
observed generation is current (non-zero, matching) and, when a desired
replica count is set, the status replicas and ready replicas equal it. -/
theorem statefulSetComplete_unknownStrategy_amended (sts : appsv1.StatefulSet)
    (hg0 : sts.Status.ObservedGeneration ≠ 0)
    (hg : sts.Generation = sts.Status.ObservedGeneration)
    (hrep : ∀ r, sts.Spec.Replicas = some r →
      sts.Status.Replicas = r ∧ sts.Status.ReadyReplicas = r)
    (h1 : sts.Spec.UpdateStrategy.Type_ ≠
      appsv1.RollingUpdateStatefulSetStrategyType)
    (h2 : sts.Spec.UpdateStrategy.Type_ ≠
      appsv1.OnDeleteStatefulSetStrategyType) :
    StatefulSetComplete sts = true := by
  cases hrepl : sts.Spec.Replicas with
  | none =>
    simp [StatefulSetComplete, hrepl, hg, hg0, h1, h2]
  | some r =>
    obtain ⟨hR, hRR⟩ := hrep r hrepl
    simp [StatefulSetComplete, hrepl, hg, hg0, hR, hRR, h1, h2]

theorem statefulSetComplete_unknownStrategy_amended_witness :
    (stsUnknownStrategyCurrent.Status.ObservedGeneration ≠ 0 ∧
      stsUnknownStrategyCurrent.Generation =
        stsUnknownStrategyCurrent.Status.ObservedGeneration ∧
      (∀ r, stsUnknownStrategyCurrent.Spec.Replicas = some r →
        stsUnknownStrategyCurrent.Status.Replicas = r ∧
        stsUnknownStrategyCurrent.Status.ReadyReplicas = r) ∧
      stsUnknownStrategyCurrent.Spec.UpdateStrategy.Type_ ≠
        appsv1.RollingUpdateStatefulSetStrategyType ∧
      stsUnknownStrategyCurrent.Spec.UpdateStrategy.Type_ ≠
        appsv1.OnDeleteStatefulSetStrategyType) ∧
    StatefulSetComplete stsUnknownStrategyCurrent = true :=
  ⟨⟨by decide, by decide,
      by
        intro r hr
        simp only [stsUnknownStrategyCurrent] at hr ⊢
        cases hr
        exact ⟨rfl, rfl⟩,
      by decide, by decide⟩,
    statefulSetComplete_unknownStrategy_amended stsUnknownStrategyCurrent
      (by decide) (by decide)
      (by
        intro r hr
        simp only [stsUnknownStrategyCurrent] at hr ⊢
        cases hr
        exact ⟨rfl, rfl⟩)
      (by decide) (by decide)⟩

/-! ## Report renderer: deduplicated message loops -/

theorem dedupMessageFold_nil (mark : String) (acc : List String × List String) :
    dedupMessageFold mark [] acc = acc := rfl

theorem dedupMessageFold_cons (mark : String) (c : DeployCheckCondition)
    (rest : List DeployCheckCondition) (acc : List String × List String) :
    dedupMessageFold mark (c :: rest) acc =
      dedupMessageFold mark rest
        (if c.IsSatisfied then
          if acc.2.contains c.Message then acc
          else (acc.1 ++ [msgChunk mark c.Message], acc.2 ++ [c.Message])
        else acc) := rfl

theorem dedupMessageFold_out_mono (mark : String)
    (conds : List DeployCheckCondition) (acc : List String × List String)
    (s : String) (h : s ∈ acc.1) : s ∈ (dedupMessageFold mark conds acc).1 := by
  induction conds generalizing acc with
  | nil => exact h
  | cons c rest ih =>
    rw [dedupMessageFold_cons]
    by_cases hs : c.IsSatisfied = true
    · rw [if_pos hs]
      by_cases hc : acc.2.contains c.Message = true
      · rw [if_pos hc]
        exact ih _ h
      · rw [if_neg hc]
        exact ih _ (List.mem_append_left _ h)
    · rw [if_neg hs]
      exact ih _ h

theorem dedupMessageFold_shown_mono (mark : String)
    (conds : List DeployCheckCondition) (acc : List String × List String)
    (m : String) (h : m ∈ acc.2) : m ∈ (dedupMessageFold mark conds acc).2 := by
  induction conds generalizing acc with
  | nil => exact h
  | cons c rest ih =>
    rw [dedupMessageFold_cons]
    by_cases hs : c.IsSatisfied = true
    · rw [if_pos hs]
      by_cases hc : acc.2.contains c.Message = true
      · rw [if_pos hc]
        exact ih _ h
      · rw [if_neg hc]
        exact ih _ (List.mem_append_left _ h)
    · rw [if_neg hs]
      exact ih _ h

theorem dedupMessageFold_emits (mark : String)
    (conds : List DeployCheckCondition) (acc : List String × List String)
    (m : String) (hnot : m ∉ acc.2)
    (hcond : ∃ cond ∈ conds, cond.IsSatisfied = true ∧ cond.Message = m) :
    msgChunk mark m ∈ (dedupMessageFold mark conds acc).1 := by
  induction conds generalizing acc with
  | nil => simp at hcond
  | cons c rest ih =>
    rw [dedupMessageFold_cons]
    obtain ⟨cond, hcmem, hsat, hmsg⟩ := hcond
    rcases List.mem_cons.mp hcmem with rfl | hrest
    · rw [if_pos hsat]
      have hc : ¬ (acc.2.contains cond.Message = true) := by
        rw [hmsg]
        simpa using hnot
      rw [if_neg hc]
      subst hmsg
      exact dedupMessageFold_out_mono _ _ _ _ (by simp)
    · by_cases hs : c.IsSatisfied = true
      · by_cases hc : acc.2.contains c.Message = true
        · rw [if_pos hs, if_pos hc]
          exact ih _ hnot ⟨cond, hrest, hsat, hmsg⟩
        · rw [if_pos hs, if_neg hc]
          by_cases hcm : c.Message = m
          · subst hcm
            exact dedupMessageFold_out_mono _ _ _ _ (by simp)
          · refine ih _ ?_ ⟨cond, hrest, hsat, hmsg⟩
            simp [List.mem_append, hnot, Ne.symm hcm]
      · rw [if_neg hs]
        exact ih _ hnot ⟨cond, hrest, hsat, hmsg⟩

theorem dedupMessageFold_records (mark : String)
    (conds : List DeployCheckCondition) (acc : List String × List String)
    (m : String)
    (hcond : ∃ cond ∈ conds, cond.IsSatisfied = true ∧ cond.Message = m) :
    m ∈ (dedupMessageFold mark conds acc).2 := by
  induction conds generalizing acc with
  | nil => simp at hcond
  | cons c rest ih =>
    rw [dedupMessageFold_cons]
    obtain ⟨cond, hcmem, hsat, hmsg⟩ := hcond
    rcases List.mem_cons.mp hcmem with rfl | hrest
    · rw [if_pos hsat]
      by_cases hc : acc.2.contains cond.Message = true
      · rw [if_pos hc]
        apply dedupMessageFold_shown_mono
        subst hmsg
        simpa using hc
      · rw [if_neg hc]
        apply dedupMessageFold_shown_mono
        subst hmsg
        simp
    · by_cases hs : c.IsSatisfied = true
      · by_cases hc : acc.2.contains c.Message = true
        · rw [if_pos hs, if_pos hc]
          exact ih _ ⟨cond, hrest, hsat, hmsg⟩
        · rw [if_pos hs, if_neg hc]
          exact ih _ ⟨cond, hrest, hsat, hmsg⟩
      · rw [if_neg hs]
        exact ih _ ⟨cond, hrest, hsat, hmsg⟩

theorem msgChunk_inj {mark a b : String} (h : msgChunk mark a = msgChunk mark b) :
    a = b := by
  have h2 := congrArg String.data h
  simp only [msgChunk, String.data_append] at h2
  exact String.ext (List.append_cancel_left (List.append_cancel_right h2))

theorem dedupMessageFold_no_reemit (mark : String)
    (conds : List DeployCheckCondition) (acc : List String × List String)
    (m : String) (hm : m ∈ acc.2) :
    (msgChunk mark m ∈ (dedupMessageFold mark conds acc).1 ↔
      msgChunk mark m ∈ acc.1) := by
  induction conds generalizing acc with
  | nil => rw [dedupMessageFold_nil]
  | cons c rest ih =>
    rw [dedupMessageFold_cons]
    by_cases hs : c.IsSatisfied = true
    · by_cases hc : acc.2.contains c.Message = true
      · rw [if_pos hs, if_pos hc]
        exact ih _ hm
      · rw [if_pos hs, if_neg hc]
        have hne : c.Message ≠ m := by
          intro hEq
          apply hc
          rw [hEq]
          simpa using hm
        rw [ih _ (List.mem_append_left _ hm)]
        constructor
        · intro hIn
          rcases List.mem_append.mp hIn with h1 | h1
          · exact h1
          · exact absurd (msgChunk_inj (List.mem_singleton.mp h1)).symm hne
        · intro hIn
          exact List.mem_append_left _ hIn
    · rw [if_neg hs]
      exact ih _ hm

theorem dedupMessageFold_out_shape (mark : String)
    (conds : List DeployCheckCondition) (acc : List String × List String)
    (s : String) (h : s ∈ (dedupMessageFold mark conds acc).1) :
    s ∈ acc.1 ∨ ∃ msg, s = msgChunk mark msg := by
  induction conds generalizing acc with
  | nil => exact Or.inl h
  | cons c rest ih =>
    rw [dedupMessageFold_cons] at h
    by_cases hs : c.IsSatisfied = true
    · by_cases hc : acc.2.contains c.Message = true
      · rw [if_pos hs, if_pos hc] at h
        exact ih _ h
      · rw [if_pos hs, if_neg hc] at h
        rcases ih _ h with h1 | h1
        · rcases List.mem_append.mp h1 with h2 | h2
          · exact Or.inl h2
          · exact Or.inr ⟨c.Message, List.mem_singleton.mp h2⟩
        · exact Or.inr h1
    · rw [if_neg hs] at h
      exact ih _ h

/-! ## Chunk-shape disequalities -/

theorem spinChunk_ne_header (b : String) :
    msgChunk "↻  " b ≠ "\n┌ Status Report\n" := by
  intro h
  have h2 := congrArg String.data h
  simp [msgChunk, String.data_append] at h2

theorem spinChunk_ne_footer (b : String) :
    msgChunk "↻  " b ≠ "└ Status Report\n" := by
  intro h
  have h2 := congrArg String.data h
  simp [msgChunk, String.data_append] at h2

theorem spinChunk_ne_headline (a b : String) :
    msgChunk "↻  " b ≠ "├ " ++ a ++ "\n" := by
  intro h
  have h2 := congrArg String.data h
  simp [msgChunk, String.data_append] at h2

theorem spinChunk_ne_unready (a b : String) :
    msgChunk "↻  " b ≠ "│   ⌚ " ++ a ++ "\n" := by
  intro h
  have h2 := congrArg String.data h
  simp [msgChunk, String.data_append] at h2

theorem spinChunk_ne_ready (a b : String) :
    msgChunk "↻  " b ≠ msgChunk "✅ " a := by
  intro h
  have h2 := congrArg String.data h
  simp [msgChunk, String.data_append] at h2

theorem spinChunk_ne_failedpod (a c b : String) :
    msgChunk "↻  " b ≠ "│   ❌ pod/" ++ a ++ " " ++ c ++ "\n" := by
  intro h
  have h2 := congrArg String.data h
  simp [msgChunk, String.data_append] at h2

theorem mem_deployFailedPodChunks (status : DeploymentStatus) (s : String)
    (h : s ∈ deployFailedPodChunks status) :
    ∃ a c, s = "│   ❌ pod/" ++ a ++ " " ++ c ++ "\n" := by
  simp only [deployFailedPodChunks, List.mem_flatMap] at h
  obtain ⟨p, hp, hmem⟩ := h
  by_cases hf : p.2.IsFailed = true
  · rw [if_pos hf] at hmem
    exact ⟨p.1, p.2.FailedReason, List.mem_singleton.mp hmem⟩
  · rw [if_neg hf] at hmem
    exact absurd hmem (List.not_mem_nil s)

theorem mem_deployUnreadyChunks (status : DeploymentStatus) (s : String)
    (h : s ∈ deployUnreadyChunks status) :
    ∃ a, s = "│   ⌚ " ++ a ++ "\n" := by
  simp only [deployUnreadyChunks] at h
  split at h
  · exact ⟨_, List.mem_singleton.mp h⟩
  · exact absurd h (List.not_mem_nil s)

/-! ## PrintStatusReport on a single-deployment tracker -/

theorem renderDeploymentStatusChunks_not_failed (spec : MultitrackSpec)
    (name : String) (status : DeploymentStatus) (shown : List String)
    (hnf : status.IsFailed = false) :
    renderDeploymentStatusChunks spec name status shown =
      (["├ " ++ deployResourceLabel spec name status ++ "\n"]
        ++ (dedupMessageFold "↻  " status.ReadyStatus.ProgressingConditions
            (([] : List String), shown)).1
        ++ deployUnreadyChunks status
        ++ (dedupMessageFold "✅ " status.ReadyStatus.ReadyConditions
            (([] : List String),
              (dedupMessageFold "↻  " status.ReadyStatus.ProgressingConditions
                (([] : List String), shown)).2)).1
        ++ deployFailedPodChunks status,
      (dedupMessageFold "✅ " status.ReadyStatus.ReadyConditions
          (([] : List String),
            (dedupMessageFold "↻  " status.ReadyStatus.ProgressingConditions
              (([] : List String), shown)).2)).2) := by
  simp [renderDeploymentStatusChunks, hnf]

theorem printStatusReport_single (name : String) (spec : MultitrackSpec)
    (trackSt : multitrackerResourceState) (status : DeploymentStatus)
    (shown : List String) :
    PrintStatusReport (singleDeploymentTracker name spec trackSt status shown) =
      (singleDeploymentTracker name spec trackSt status
          (renderDeploymentStatusChunks spec name status shown).2,
        "\n┌ Status Report\n" ::
          ((renderDeploymentStatusChunks spec name status shown).1
            ++ ["└ Status Report\n"])) := by
  simp [PrintStatusReport, singleDeploymentTracker, renderDeploymentsSection,
    renderDeploymentsSectionStep, renderUnavailableChunks, assocFind, assocSet]

/-- C8: on a tracker with one tracked deployment, a satisfied
progressing-condition message not yet in the resource's shown-messages set
produces the "↻" chunk in the rendered frame, is recorded in
`ShownDeploymentMessages` for the resource, and rendering a second frame with
the same status does not produce that chunk again (first-seen-wins
deduplication keyed by the exact message string for the life of the run). -/
theorem printStatusReport_dedup (name : String) (spec : MultitrackSpec)
    (trackSt : multitrackerResourceState) (status : DeploymentStatus)
    (S : List String) (m : String)
    (hnf : status.IsFailed = false)
    (hm : m ∉ S)
    (hcond : ∃ cond ∈ status.ReadyStatus.ProgressingConditions,
      cond.IsSatisfied = true ∧ cond.Message = m) :
    msgChunk "↻  " m ∈
      (PrintStatusReport
        (singleDeploymentTracker name spec trackSt status S)).2 ∧
    (∃ S', assocFind ((PrintStatusReport
        (singleDeploymentTracker name spec trackSt status S)).1).ShownDeploymentMessages
        name = some S' ∧ m ∈ S') ∧
    msgChunk "↻  " m ∉
      (PrintStatusReport ((PrintStatusReport
        (singleDeploymentTracker name spec trackSt status S)).1)).2 := by
  rw [printStatusReport_single]
  dsimp only
  rw [printStatusReport_single]
  dsimp only
  have hshown : m ∈ (renderDeploymentStatusChunks spec name status S).2 := by
    rw [renderDeploymentStatusChunks_not_failed spec name status S hnf]
    dsimp only
    exact dedupMessageFold_shown_mono _ _ _ _
      (dedupMessageFold_records _ _ _ _ hcond)
  refine ⟨?_, ?_, ?_⟩
  · apply List.mem_cons_of_mem
    apply List.mem_append_left
    rw [renderDeploymentStatusChunks_not_failed spec name status S hnf]
    dsimp only
    apply List.mem_append_left
    apply List.mem_append_left
    apply List.mem_append_left
    apply List.mem_append_right
    exact dedupMessageFold_emits _ _ _ _ hm hcond
  · refine ⟨(renderDeploymentStatusChunks spec name status S).2, ?_, hshown⟩
    simp [singleDeploymentTracker, assocFind]
  · intro hIn
    rcases List.mem_cons.mp hIn with h | h
    · exact spinChunk_ne_header m h
    rcases List.mem_append.mp h with h | h
    swap
    · exact spinChunk_ne_footer m (List.mem_singleton.mp h)
    rw [renderDeploymentStatusChunks_not_failed spec name status _ hnf] at h
    dsimp only at h
    rcases List.mem_append.mp h with h | h
    swap
    · obtain ⟨a, c, hEq⟩ := mem_deployFailedPodChunks status _ h
      exact spinChunk_ne_failedpod a c m hEq
    rcases List.mem_append.mp h with h | h
    swap
    · rcases dedupMessageFold_out_shape _ _ _ _ h with h1 | ⟨msg, hEq⟩
      · exact absurd h1 (List.not_mem_nil _)
      · exact spinChunk_ne_ready msg m hEq
    rcases List.mem_append.mp h with h | h
    swap
    · obtain ⟨a, hEq⟩ := mem_deployUnreadyChunks status _ h
      exact spinChunk_ne_unready a m hEq
    rcases List.mem_append.mp h with h | h
    · exact spinChunk_ne_headline
        (deployResourceLabel spec name status) m (List.mem_singleton.mp h)
    · have := (dedupMessageFold_no_reemit "↻  "
        status.ReadyStatus.ProgressingConditions
        (([] : List String),
          (renderDeploymentStatusChunks spec name status S).2) m hshown).mp h
      exact absurd this (List.not_mem_nil _)

theorem printStatusReport_dedup_witness :
    (demoDeploymentStatus.IsFailed = false ∧
      "waiting for rollout" ∉ ([] : List String) ∧
      (∃ cond ∈ demoDeploymentStatus.ReadyStatus.ProgressingConditions,
        cond.IsSatisfied = true ∧ cond.Message = "waiting for rollout")) ∧
    (msgChunk "↻  " "waiting for rollout" ∈
      (PrintStatusReport (singleDeploymentTracker "backend" demoSpec
        freshState demoDeploymentStatus [])).2 ∧
    (∃ S', assocFind ((PrintStatusReport (singleDeploymentTracker "backend"
        demoSpec freshState demoDeploymentStatus [])).1).ShownDeploymentMessages
        "backend" = some S' ∧ "waiting for rollout" ∈ S') ∧
    msgChunk "↻  " "waiting for rollout" ∉
      (PrintStatusReport ((PrintStatusReport (singleDeploymentTracker "backend"
        demoSpec freshState demoDeploymentStatus [])).1)).2) :=
  ⟨⟨rfl, by decide, by decide⟩,
    printStatusReport_dedup "backend" demoSpec freshState demoDeploymentStatus
      [] "waiting for rollout" rfl (by decide) (by decide)⟩

end Kubedog
